/-
Verification of the skill-migration classifier (`update_all_skills.py`).

The Python source is shallowly embedded below: each Python function is
translated into a Lean definition of the same name.  Python strings are
modelled as Lean `String` (lists of unicode code points), Python's
substring operator `in` as `strInB`, dictionaries with a fixed insertion
order as association `List`s, and the file system around `process_skill`
as an explicit `SkillDir` state record.  Python's `str.lower` is modelled
by `String.toLower` (ASCII case folding; every keyword in the tables is
ASCII, so the substring tests below are unaffected).
-/
import Mathlib

set_option maxHeartbeats 1000000
set_option maxRecDepth 100000

/-! ### Basic string machinery -/

/-- Model of Python's substring test `needle in hay` on lists of code points. -/
def listIn (needle : List Char) : List Char → Bool
  | [] => needle.isEmpty
  | c :: t => needle.isPrefixOf (c :: t) || listIn needle t

/-- Model of Python's `needle in hay` for strings (`Bool` version used by the code). -/
def strInB (needle hay : String) : Bool :=
  listIn needle.toList hay.toList

/-- Propositional counterpart of `strInB`: `needle` occurs contiguously in `hay`. -/
def StrIn (needle hay : String) : Prop :=
  needle.toList <:+: hay.toList

instance (needle hay : String) : Decidable (StrIn needle hay) :=
  List.decidableInfix needle.toList hay.toList

/-- Model of Python's `str.lower`, i.e. the per-character case fold that
`String.toLower` performs, written over the character list (so that it is
evaluable by the kernel). -/
def strLower (s : String) : String :=
  String.mk (s.toList.map Char.toLower)

/-! ### Keyword tables (module-level data of the script) -/

def HOMEPAGE : String := "https://datadrivenconstruction.io"
def AUTHOR : String := "datadrivenconstruction"

/-- Table `EMOJI_MAP`: emoji by category/subcategory (Python dict, insertion order). -/
def EMOJI_MAP : List (String × String) := [
  ("Analytics", "📊"),
  ("BIM-Analysis", "🔍"),
  ("BIM-Visualization", "🖼️"),
  ("CAD-Converters", "📄"),
  ("Closeout", "✅"),
  ("Cost-Management", "💰"),
  ("CWICR-Database", "🗄️"),
  ("Document-Control", "📋"),
  ("Field-Operations", "🏗️"),
  ("Kaggle-Notebooks", "📓"),
  ("Procurement", "🛒"),
  ("Project-Closeout", "✅"),
  ("Resource-Management", "👷"),
  ("Schedule-Integration", "📅"),
  ("Schedule-Management", "📅"),
  ("Sustainability", "🌱"),
  ("1.1-Data-Evolution", "📚"),
  ("1.2-Data-Silos-Integration", "🔗"),
  ("2.1-Data-Types-Classification", "🏷️"),
  ("2.2-Open-Data-Standards", "🌐"),
  ("2.3-Pandas-LLM-Analysis", "🐼"),
  ("2.4-PDF-CAD-to-Data", "📑"),
  ("2.5-Data-Modeling-Standards", "📐"),
  ("2.6-Data-Quality-Validation", "✔️"),
  ("3.1-Cost-Estimation", "🧮"),
  ("3.2-QTO-Auto-Estimates", "⚡"),
  ("3.3-4D-BIM-CO2-Simulation", "🎬"),
  ("3.4-ERP-Integration", "🔄"),
  ("3.5-Interoperability", "🔀"),
  ("4.1-Analytics-KPI-Dashboard", "📈"),
  ("4.2-ETL-Automation", "⚙️"),
  ("4.3-BIM-Validation-Pipeline", "🔎"),
  ("4.4-Vector-Search-BigData", "🔢"),
  ("4.5-ML-Cost-Prediction", "🤖"),
  ("5.1-Digital-Maturity-Strategy", "🎯"),
  ("AI-Agents", "🤖"),
  ("Automation-Workflows", "🔧"),
  ("Field-Automation", "📱"),
  ("Open-Data-Transparency", "🌍"),
  ("Safety-Quality", "🦺"),
  ("Schedule-Optimization", "⏱️"),
  ("Contract-Legal", "📝"),
  ("Data-Validation", "✔️"),
  ("Document-Generation", "📄"),
  ("Financial-Management", "💵"),
  ("Prompt-Engineering", "💡"),
  ("Quality-Assurance", "🛡️"),
  ("5_DDC_Innovative", "🚀")]

/-- Table `WIN32_KEYWORDS`: markers that indicate Windows-only content. -/
def WIN32_KEYWORDS : List String := [
  "RvtExporter", "DwgExporter", "DgnExporter", "RVT2IFCconverter",
  "Revit", ".rvt", "AutoCAD", "MicroStation", ".dgn",
  "revit_", "pyrevit"]

/-- Table `NETWORK_KEYWORDS`: markers that indicate the network permission. -/
def NETWORK_KEYWORDS : List String := [
  "requests.get", "requests.post", "urllib", "httpx",
  "API_KEY", "api_key", "OPENAI_API", "QDRANT",
  "webhook", "REST API", "GraphQL", "endpoint",
  "telegram", "slack", "n8n"]

/-- Table `BIN_REQUIREMENTS`: keywords for specific binary requirements. -/
def BIN_REQUIREMENTS : List (String × List String) := [
  ("python3", ["import ", "python", "pip install", "pandas", "numpy"]),
  ("tesseract", ["tesseract", "pytesseract", "OCR"]),
  ("ifcopenshell", ["ifcopenshell", "IfcOpenShell"]),
  ("IfcConvert", ["IfcConvert"])]

/-- Table `ENV_REQUIREMENTS`: keywords for environment-variable requirements. -/
def ENV_REQUIREMENTS : List (String × List String) := [
  ("OPENAI_API_KEY", ["OPENAI_API_KEY", "openai.api_key", "OpenAI("]),
  ("QDRANT_URL", ["QDRANT_URL", "QdrantClient", "qdrant"])]

/-! ### Classifier -/

/-- Function `get_subcategory`: the subcategory folder name from the path parts of the
skill directory relative to `BASE` (`Category/Subcategory/skill-name` or
`Category/skill-name`).  Python raises `IndexError` on an empty parts tuple
(which cannot happen for files found below `BASE`); here `getD` with `""`
stands in for that unreachable case. -/
def get_subcategory (parts : List String) : String :=
  if 3 ≤ parts.length then parts.getD 1 "" else parts.getD 0 ""

/-- Function `get_top_category`: the top-level category (first path part). -/
def get_top_category (parts : List String) : String :=
  parts.getD 0 ""

/-- Function `determine_emoji`: subcategory lookup, then top-category lookup, then
ordered name-keyword fallbacks, then the default tool emoji. -/
def determine_emoji (parts : List String) (name : String) : String :=
  let subcat := get_subcategory parts
  let topcat := get_top_category parts
  match EMOJI_MAP.lookup subcat with
  | some e => e
  | none =>
    match EMOJI_MAP.lookup topcat with
    | some e => e
    | none =>
      if ["cost", "estimat", "budget", "price", "payment"].any (fun k => strInB k name) then "💰"
      else if ["schedule", "gantt", "4d", "timeline"].any (fun k => strInB k name) then "📅"
      else if ["safety", "inspection", "compliance"].any (fun k => strInB k name) then "🦺"
      else if ["report", "document", "pdf", "docx"].any (fun k => strInB k name) then "📄"
      else if ["bim", "ifc", "revit"].any (fun k => strInB k name) then "🏗️"
      else if ["ml", "predict", "ai", "neural"].any (fun k => strInB k name) then "🤖"
      else if ["data", "etl", "pipeline"].any (fun k => strInB k name) then "📊"
      else "🔧"

/-- Function `determine_os`: the Python `for kw in WIN32_KEYWORDS: if kw in content:
return ["win32"]` loop, translated by recursion over the keyword list. -/
def determine_os_loop (kws : List String) (content : String) : List String :=
  match kws with
  | [] => ["darwin", "linux", "win32"]
  | kw :: rest => if strInB kw content then ["win32"] else determine_os_loop rest content

def determine_os (content : String) : List String :=
  determine_os_loop WIN32_KEYWORDS content

/-- Result of `determine_requires`.  The Python function returns nested dicts
`{"requires": {"bins": ..., "anyBins": ..., "env": ...}, "primaryEnv": ...}`
where each inner key is present exactly when its list is nonempty and
`primaryEnv` is present exactly when it was set; an empty list / `none`
models an omitted key. -/
structure RequiresInfo where
  bins : List String
  anyBins : List String
  env : List String
  primaryEnv : Option String
  deriving Repr, DecidableEq

/-- Function `determine_requires`: binary and env requirements. -/
def determine_requires (content : String) : RequiresInfo :=
  let bins :=
    if ((BIN_REQUIREMENTS.lookup "python3").getD []).any (fun kw => strInB kw content)
    then ["python3"] else []
  let any_bins :=
    (BIN_REQUIREMENTS.filter
      (fun p => p.1 != "python3" && p.2.any (fun kw => strInB kw content))).map (fun p => p.1)
  let envAcc := ENV_REQUIREMENTS.foldl
    (fun (acc : List String × Option String) p =>
      if p.2.any (fun kw => strInB kw content) then
        (acc.1 ++ [p.1], if acc.2.isNone then some p.1 else acc.2)
      else acc)
    ([], none)
  { bins := bins, anyBins := any_bins, env := envAcc.1, primaryEnv := envAcc.2 }

/-- Function `determine_permissions`: `"filesystem"` always, `"network"` appended when
any network keyword occurs in the content. -/
def determine_permissions (content : String) : List String :=
  let perms := ["filesystem"]
  if NETWORK_KEYWORDS.any (fun kw => strInB kw content) then perms ++ ["network"] else perms

/-- The `tag_keywords` dict local to `determine_tags` (insertion order). -/
def tag_keywords : List (String × List String) := [
  ("estimation", ["estimat", "cost", "price", "budget"]),
  ("BIM", ["bim", "ifc", "revit", "rvt"]),
  ("cost-management", ["cost", "budget", "payment", "invoice"]),
  ("scheduling", ["schedule", "gantt", "4d", "critical-path", "delay"]),
  ("data-processing", ["data", "etl", "pipeline", "csv", "json", "xml"]),
  ("safety", ["safety", "inspection", "compliance", "incident"]),
  ("reporting", ["report", "dashboard", "kpi", "analytics"]),
  ("machine-learning", ["ml", "predict", "neural", "model", "forecast"]),
  ("document-management", ["document", "pdf", "docx", "rfi", "submittal"]),
  ("quality", ["quality", "validation", "check", "verify"]),
  ("procurement", ["procurement", "bid", "material", "subcontractor"]),
  ("sustainability", ["carbon", "co2", "energy", "green", "lifecycle"]),
  ("automation", ["automat", "workflow", "n8n", "etl"]),
  ("CWICR", ["cwicr"]),
  ("GIS", ["gis", "coordinate", "spatial", "geo"]),
  ("CAD", ["cad", "dwg", "dgn", "drawing"])]

/-- Function `determine_tags`: start from `["construction"]`, append the name of every
tag category whose keywords hit the lowercased `name description subcat`
concatenation, in table order, then truncate to 5 entries.  The `topcat`
argument is accepted (as in the source) but unused. -/
def determine_tags (name description subcat topcat : String) : List String :=
  let combined := strLower (name ++ " " ++ description ++ " " ++ subcat)
  let tags := "construction" ::
    (tag_keywords.filter (fun p => p.2.any (fun kw => strInB kw combined))).map (fun p => p.1)
  tags.take 5

/-! ### Instruction synthesizer -/

/-- Function `generate_instructions`: templated instruction document.  The `content`
parameter is accepted but never used (exactly as in the source). -/
def generate_instructions (name description content : String) : String :=
  let desc_lower := strLower description
  let action :=
    if strInB "convert" desc_lower || strInB "extract" desc_lower then
      "convert or extract data"
    else if strInB "estimat" desc_lower || strInB "cost" desc_lower then
      "create cost estimates or analyze costs"
    else if strInB "analyz" desc_lower || strInB "analysis" desc_lower then
      "analyze data and generate insights"
    else if strInB "generat" desc_lower || strInB "creat" desc_lower then
      "generate documents or reports"
    else if strInB "manag" desc_lower || strInB "track" desc_lower then
      "manage and track project data"
    else if strInB "validat" desc_lower || strInB "check" desc_lower then
      "validate data quality and compliance"
    else if strInB "predict" desc_lower || strInB "forecast" desc_lower then
      "predict outcomes using data models"
    else if strInB "schedul" desc_lower then
      "manage schedules and timelines"
    else if strInB "search" desc_lower || strInB "query" desc_lower then
      "search and query data"
    else
      "assist with construction project tasks"
  let domain :=
    if strInB "cwicr" name then
      "construction cost data using CWICR (Construction Work Item Cost Resource) database"
    else if strInB "bim" name || strInB "ifc" name || strInB "rvt" name then
      "BIM (Building Information Modeling) data processing"
    else if strInB "schedule" name || strInB "4d" name || strInB "gantt" name then
      "construction project scheduling"
    else if strInB "safety" name || strInB "inspection" name then
      "construction safety and compliance"
    else if strInB "cost" name || strInB "estimat" name || strInB "price" name
        || strInB "budget" name then
      "construction cost estimation and management"
    else if strInB "report" name || strInB "document" name || strInB "pdf" name then
      "construction document management and reporting"
    else if strInB "data" name || strInB "etl" name || strInB "pipeline" name then
      "construction data processing and analytics"
    else if strInB "ml" name || strInB "predict" name then
      "machine learning for construction"
    else if strInB "n8n" name || strInB "workflow" name || strInB "automat" name then
      "construction workflow automation"
    else if strInB "material" name || strInB "procurement" name then
      "construction procurement and materials management"
    else
      "construction project management"
  "You are a construction industry assistant specializing in " ++ domain ++ ".\n\n"
    ++ description ++ "\n\nWhen the user asks to " ++ action ++ ":\n"
    ++ "1. Gather the required input data from the user\n"
    ++ "2. Process the data using the methods described in SKILL.md\n"
    ++ "3. Present results in a clear, structured format\n"
    ++ "4. Offer follow-up analysis or export options\n\n"
    ++ "## Input Format\n"
    ++ "- The user provides project data, file paths, or parameters as described in SKILL.md\n"
    ++ "- Accept data in common formats: CSV, Excel, JSON, or direct input\n\n"
    ++ "## Output Format\n"
    ++ "- Present results in structured tables when applicable\n"
    ++ "- Include summary statistics and key findings\n"
    ++ "- Offer export to Excel/CSV/JSON when relevant\n\n"
    ++ "## Key Reference\n"
    ++ "- See SKILL.md for detailed implementation code, classes, and methods\n"
    ++ "- Follow the patterns and APIs defined in the skill documentation\n\n"
    ++ "## Constraints\n"
    ++ "- Only use data provided by the user or referenced in the skill\n"
    ++ "- Validate inputs before processing\n"
    ++ "- Report errors clearly with suggested fixes\n"
    ++ "- Follow construction industry standards and best practices\n"

/-! ### JSON serialization (the fixed shapes produced by `json.dumps`) -/

/-- One hex digit (used by the `\u00XX` escapes of `json.dumps`). -/
def hexDigit (n : Nat) : Char :=
  (("0123456789abcdef".toList).get? n).getD '0'

/-- Model of the `json.dumps` escaping of one character with `ensure_ascii=False`:
`"` and `\` are escaped, control characters below `0x20` are escaped with
the usual short forms or `\u00XX`, everything else is kept verbatim. -/
def jsonEscChar (c : Char) : List Char :=
  if c = '"' then ['\\', '"']
  else if c = '\\' then ['\\', '\\']
  else if c = '\n' then ['\\', 'n']
  else if c = '\t' then ['\\', 't']
  else if c = '\r' then ['\\', 'r']
  else if c = '\x08' then ['\\', 'b']
  else if c = '\x0c' then ['\\', 'f']
  else if c.toNat < 32 then
    ['\\', 'u', '0', '0', hexDigit (c.toNat / 16), hexDigit (c.toNat % 16)]
  else [c]

/-- A JSON string literal for `s` (`json.dumps` of a Python `str`). -/
def jsonQuote (s : String) : String :=
  String.mk ('"' :: (s.toList.flatMap jsonEscChar) ++ ['"'])

/-- Join with a separator (the default item separator of `json.dumps`). -/
def joinSep (sep : String) : List String → String
  | [] => ""
  | [x] => x
  | x :: y :: xs => x ++ sep ++ joinSep sep (y :: xs)

/-- Serialization `json.dumps` of a list of strings, single line: `["a", "b"]`. -/
def jsonStrList (xs : List String) : String :=
  "[" ++ joinSep ", " (xs.map jsonQuote) ++ "]"

/-- Serialization `json.dumps` of the `requires` dict built by `determine_requires`:
the keys `bins`, `anyBins`, `env` are present exactly when nonempty. -/
def jsonRequires (ri : RequiresInfo) : String :=
  let items :=
    (if ri.bins.isEmpty then [] else [("bins", ri.bins)])
    ++ (if ri.anyBins.isEmpty then [] else [("anyBins", ri.anyBins)])
    ++ (if ri.env.isEmpty then [] else [("env", ri.env)])
  if items.isEmpty then "\x7b\x7d"
  else "\x7b" ++ joinSep ", "
    (items.map (fun kv => jsonQuote kv.1 ++ ": " ++ jsonStrList kv.2)) ++ "\x7d"

/-- Function `build_metadata`: the single-line `json.dumps` of the metadata record
`{"openclaw": {"emoji": ..., "os": ..., "homepage": ..., "requires": ...}}`
with the optional `primaryEnv` key appended after `requires`. -/
def build_metadata (emoji : String) (os_list : List String) (homepage : String)
    (requires_info : RequiresInfo) : String :=
  "\x7b\"openclaw\": \x7b\"emoji\": " ++ jsonQuote emoji
    ++ ", \"os\": " ++ jsonStrList os_list
    ++ ", \"homepage\": " ++ jsonQuote homepage
    ++ ", \"requires\": " ++ jsonRequires requires_info
    ++ (match requires_info.primaryEnv with
        | some p => ", \"primaryEnv\": " ++ jsonQuote p
        | none => "")
    ++ "\x7d\x7d"

/-- The record built by `build_claw_json` (the `claw.json` manifest). -/
structure ClawData where
  name : String
  version : String
  description : String
  author : String
  license : String
  permissions : List String
  entry : String
  tags : List String
  models : List String
  minOpenClawVersion : String
  deriving Repr, DecidableEq

/-- Function `build_claw_json`: assemble the manifest record. -/
def build_claw_json (name description : String) (permissions tags : List String) : ClawData :=
  { name := name, version := "2.0.0", description := description,
    author := AUTHOR, license := "MIT", permissions := permissions,
    entry := "instructions.md", tags := tags,
    models := ["claude-*", "gpt-*"], minOpenClawVersion := "0.8.0" }

/-- Serialization `json.dumps(..., indent=2)` of a list of strings nested at depth 1. -/
def jsonStrListInd (xs : List String) : String :=
  if xs.isEmpty then "[]"
  else "[\n" ++ joinSep ",\n" (xs.map (fun x => "    " ++ jsonQuote x)) ++ "\n  ]"

/-- Serialization `json.dumps(claw_data, indent=2, ensure_ascii=False)`: the exact text
written to `claw.json`. -/
def clawJsonDump (d : ClawData) : String :=
  "\x7b\n  \"name\": " ++ jsonQuote d.name
    ++ ",\n  \"version\": " ++ jsonQuote d.version
    ++ ",\n  \"description\": " ++ jsonQuote d.description
    ++ ",\n  \"author\": " ++ jsonQuote d.author
    ++ ",\n  \"license\": " ++ jsonQuote d.license
    ++ ",\n  \"permissions\": " ++ jsonStrListInd d.permissions
    ++ ",\n  \"entry\": " ++ jsonQuote d.entry
    ++ ",\n  \"tags\": " ++ jsonStrListInd d.tags
    ++ ",\n  \"models\": " ++ jsonStrListInd d.models
    ++ ",\n  \"minOpenClawVersion\": " ++ jsonQuote d.minOpenClawVersion
    ++ "\n\x7d"

/-! ### Frontmatter parsing

`parse_frontmatter` applies the regex `^---\s*\n(.*?)\n---\s*\n` (with
`re.DOTALL`), i.e. (in priority order of the backtracking engine): the
literal `---` at position 0, a greedy run of whitespace ending in a newline,
a lazy group, the literal `\n---`, and a final greedy run of whitespace
ending in a newline.  The functions below implement exactly that search:
`greedyWsNl` picks the largest `j` such that the first `j` characters are
whitespace and character `j` is `'\n'` (greedy `\s*` followed by `\n`),
`findClose` finds the smallest split for the lazy group such that the rest
of the pattern matches, and `pickFm` tries the candidate opening splits
from the largest down (the engine backtracks the first `\s*` when no close
is found).  Whitespace is `Char.isWhitespace` (Python `\s` on the ASCII
range except `\x0b`/`\x0c`; no skill text hits the difference). -/

def isWS (c : Char) : Bool := c.isWhitespace

/-- The match of `\s*\n` at the start of `t`, as the index of the consumed
`'\n'` (greedy: the largest such index). -/
def greedyWsNl (t : List Char) : Option Nat :=
  ((List.range t.length).filter
    (fun j => (t.take j).all isWS && (t.get? j == some '\n'))).getLast?

def nlDashes : List Char := ['\n', '-', '-', '-']

/-- Lazy search for `\n---` followed by a successful `\s*\n`: returns the
group matched so far together with the text after the `\n---`. -/
def findClose : List Char → Option (List Char × List Char)
  | [] => none
  | c :: t =>
    if nlDashes.isPrefixOf (c :: t) && (greedyWsNl ((c :: t).drop 4)).isSome then
      some ([], (c :: t).drop 4)
    else
      match findClose t with
      | some (g, rest) => some (c :: g, rest)
      | none => none

/-- Try the candidate matches of the opening `\s*\n` from the greediest
down; for each, look for the lazy close.  Returns (group, text after the
whole match). -/
def pickFm (r : List Char) : Option (List Char × List Char) :=
  (((List.range r.length).filter
      (fun k => (r.take k).all isWS && (r.get? k == some '\n'))).reverse).findSome?
    (fun k =>
      match findClose (r.drop (k + 1)) with
      | some (g, t) =>
        match greedyWsNl t with
        | some j => some (g, t.drop (j + 1))
        | none => none
      | none => none)

/-- Model of Python `str.strip()` on a list of characters. -/
def stripWS (l : List Char) : List Char :=
  ((l.dropWhile isWS).reverse.dropWhile isWS).reverse

/-- Model of Python `str.strip(c)` (strip runs of one given character from both ends). -/
def stripCh (c : Char) (l : List Char) : List Char :=
  ((l.dropWhile (· == c)).reverse.dropWhile (· == c)).reverse

/-- Model of Python `str.split('\n')`. -/
def splitNl : List Char → List (List Char)
  | [] => [[]]
  | c :: t =>
    if c = '\n' then [] :: splitNl t
    else
      match splitNl t with
      | [] => [[c]]
      | h :: r => (c :: h) :: r

/-- The `key: value` lines of the frontmatter text, parsed as in the Python
loop: strip the line, keep it when it contains a colon, split at the first
colon, strip the key, strip the value and its surrounding quote characters.
Later duplicate keys shadow earlier ones (Python dict assignment); the
association list keeps every pair and `fmGet` reads the last one. -/
def parseFmLines (lines : List (List Char)) : List (String × String) :=
  lines.filterMap (fun l0 =>
    let l := stripWS l0
    if l.contains ':' then
      some (String.mk (stripWS (l.takeWhile (· ≠ ':'))),
            String.mk (stripCh '\'' (stripCh '"' (stripWS ((l.dropWhile (· ≠ ':')).drop 1)))))
    else none)

/-- Model of Python `key in fm`. -/
def fmHasKey (fm : List (String × String)) (key : String) : Bool :=
  fm.any (fun p => p.1 == key)

/-- Model of Python `fm.get(key, default)` (last assignment wins). -/
def fmGet (fm : List (String × String)) (key : String) : Option String :=
  ((fm.filter (fun p => p.1 == key)).map (fun p => p.2)).getLast?

def fmGetD (fm : List (String × String)) (key default : String) : String :=
  (fmGet fm key).getD default

/-- Expression `fm.get("name", fm.get("slug", skill_dir.name))` from `process_skill`. -/
def nameOf (fm : List (String × String)) (dirName : String) : String :=
  fmGetD fm "name" (fmGetD fm "slug" dirName)

/-- Expression `fm.get("description", "")` from `process_skill`. -/
def descOf (fm : List (String × String)) : String :=
  fmGetD fm "description" ""

/-- Function `parse_frontmatter`: returns the parsed frontmatter dict and the body
(the text after the whole regex match), or `(none, content)` when the regex
does not match. -/
def parse_frontmatter (content : String) : Option (List (String × String)) × String :=
  let cs := content.toList
  if ['-', '-', '-'].isPrefixOf cs then
    match pickFm (cs.drop 3) with
    | some (g, body) => (some (parseFmLines (splitNl g)), String.mk body)
    | none => (none, content)
  else (none, content)

/-! ### `process_skill` over an explicit directory state -/

/-- The per-skill slice of the file system that `process_skill` touches:
the skill directory name, its path parts relative to `BASE`, and the three
files (`none` = the file does not exist). -/
structure SkillDir where
  dirName : String
  parts : List String
  skillMd : Option String
  clawJson : Option String
  instructionsMd : Option String
  deriving Repr, DecidableEq

/-- Function `process_skill`: returns the directory state after the call together
with the report string (`none` models Python's `return None` when
`SKILL.md` is missing). -/
def process_skill (st : SkillDir) : SkillDir × Option String :=
  match st.skillMd with
  | none => (st, none)
  | some content =>
    match parse_frontmatter content with
    | (none, _) => (st, some ("SKIP (no frontmatter): " ++ st.dirName))
    | (some fm, body) =>
      if fm.isEmpty then (st, some ("SKIP (no frontmatter): " ++ st.dirName))
      else if fmHasKey fm "homepage" then
        (st, some ("SKIP (already updated): " ++ st.dirName))
      else
        let name := nameOf fm st.dirName
        let description := descOf fm
        let emoji := determine_emoji st.parts name
        let os_list := determine_os content
        let requires_info := determine_requires content
        let permissions := determine_permissions content
        let tags := determine_tags name description (get_subcategory st.parts)
          (get_top_category st.parts)
        let metadata_str := build_metadata emoji os_list HOMEPAGE requires_info
        let new_content :=
          "---\n" ++ "name: \"" ++ name ++ "\"\n"
            ++ "description: \"" ++ description ++ "\"\n"
            ++ "homepage: \"" ++ HOMEPAGE ++ "\"\n"
            ++ "metadata: " ++ metadata_str ++ "\n" ++ "---" ++ "\n" ++ body
        let st' : SkillDir :=
          { st with
            skillMd := some new_content
            clawJson :=
              if st.clawJson.isSome then st.clawJson
              else some (clawJsonDump (build_claw_json name description permissions tags))
            instructionsMd :=
              if st.instructionsMd.isSome then st.instructionsMd
              else some (generate_instructions name description content) }
        (st', some ("OK: " ++ name))

/-! ### Spec-side definitions used to state the claims -/

/-- Modelled from the spec: the ordered name-keyword fallback of the emoji
selection — seven groups, first match wins, default tool emoji.  Written
from the spec wording to be compared with `determine_emoji`. -/
def firstMatchEmoji (groups : List (List String × String)) (name : String) : String :=
  match groups with
  | [] => "🔧"
  | (kws, e) :: rest => if kws.any (fun k => strInB k name) then e else firstMatchEmoji rest name

/-- Modelled from the spec: the seven fallback keyword groups in their
declared order. -/
def specNameEmojiGroups : List (List String × String) := [
  (["cost", "estimat", "budget", "price", "payment"], "💰"),
  (["schedule", "gantt", "4d", "timeline"], "📅"),
  (["safety", "inspection", "compliance"], "🦺"),
  (["report", "document", "pdf", "docx"], "📄"),
  (["bim", "ifc", "revit"], "🏗️"),
  (["ml", "predict", "ai", "neural"], "🤖"),
  (["data", "etl", "pipeline"], "📊")]

/-- Modelled from the spec: the environment variables whose keyword sets
match the content, in table iteration order. -/
def specMatchedEnvVars (content : String) : List String :=
  (ENV_REQUIREMENTS.filter (fun p => p.2.any (fun kw => strInB kw content))).map (fun p => p.1)

/-- Number of `'\n'` characters in a character list. -/
def countNl (l : List Char) : Nat :=
  (l.filter (fun c => c == '\n')).length

/-- The number of lines occupied by the frontmatter header of `content`:
the region consumed by the `parse_frontmatter` regex match (each of its
lines ends in `'\n'`), or `none` when there is no header. -/
def headerLineCount (content : String) : Option Nat :=
  match parse_frontmatter content with
  | (some _, body) => some (countNl (content.toList.take (content.toList.length - body.toList.length)))
  | (none, _) => none

/-- A concrete skill directory used for the explicit counterexamples and
witnesses. -/
def exSt : SkillDir :=
  { dirName := "demo-skill"
    parts := ["9_Cat", "Sub", "demo-skill"]
    skillMd := some "---\nname: demo\ndescription: Demo skill\n---\nBody text"
    clawJson := none
    instructionsMd := none }

/-- State `exSt` with both companion files already present. -/
def exStFiles : SkillDir :=
  { exSt with clawJson := some "old claw.json content", instructionsMd := some "old instructions" }

/-- A minimal already-processed-style skill used as a witness input. -/
def exSt8 : SkillDir :=
  { dirName := "demo"
    parts := ["A", "B", "demo"]
    skillMd := some "---\nname: x\n---\nB"
    clawJson := none
    instructionsMd := none }

/-! ### Theorems -/

theorem listIn_iff (n l : List Char) : listIn n l = true ↔ n <:+: l := by
  induction l with
  | nil =>
    simp [listIn, List.isEmpty_iff]
  | cons c t ih =>
    simp [listIn, List.infix_cons_iff, ih, List.isPrefixOf_iff_prefix]

theorem strInB_iff (n h : String) : strInB n h = true ↔ StrIn n h :=
  listIn_iff n.toList h.toList

theorem determine_os_loop_eq (content : String) (kws : List String) :
    determine_os_loop kws content =
      if kws.any (fun kw => strInB kw content) then ["win32"]
      else ["darwin", "linux", "win32"] := by
  induction kws with
  | nil => simp [determine_os_loop]
  | cons kw rest ih =>
    by_cases h : strInB kw content = true
    · simp [determine_os_loop, h]
    · simp only [Bool.not_eq_true] at h
      simp [determine_os_loop, h, ih]

/-- Claim C4: For every raw text, OS determination returns exactly `["win32"]`
iff some Windows-only marker of the fixed list occurs as a substring of the
text, and otherwise returns the three-platform list. -/
theorem claim_C4_os (content : String) :
    (determine_os content = ["win32"] ↔ ∃ kw ∈ WIN32_KEYWORDS, StrIn kw content) ∧
    (¬(∃ kw ∈ WIN32_KEYWORDS, StrIn kw content) →
      determine_os content = ["darwin", "linux", "win32"]) := by
  have hany : (WIN32_KEYWORDS.any (fun kw => strInB kw content) = true)
      ↔ ∃ kw ∈ WIN32_KEYWORDS, StrIn kw content := by
    rw [List.any_eq_true]
    constructor
    · rintro ⟨kw, hmem, hin⟩; exact ⟨kw, hmem, (strInB_iff kw content).1 hin⟩
    · rintro ⟨kw, hmem, hin⟩; exact ⟨kw, hmem, (strInB_iff kw content).2 hin⟩
  unfold determine_os
  rw [determine_os_loop_eq]
  constructor
  · constructor
    · intro h
      by_contra hno
      rw [← hany] at hno
      simp only [Bool.not_eq_true] at hno
      simp [hno] at h
    · intro h
      rw [← hany] at h
      simp [h]
  · intro h
    rw [← hany] at h
    simp only [Bool.not_eq_true] at h
    simp [h]

/-- Claim C6: For every raw text, the permissions list starts with
`"filesystem"`, and contains `"network"` iff some marker of the fixed
networking-marker set occurs in the text. -/
theorem claim_C6_permissions (content : String) :
    (determine_permissions content).head? = some "filesystem" ∧
    ("network" ∈ determine_permissions content ↔
      ∃ kw ∈ NETWORK_KEYWORDS, StrIn kw content) := by
  have hany : (NETWORK_KEYWORDS.any (fun kw => strInB kw content) = true)
      ↔ ∃ kw ∈ NETWORK_KEYWORDS, StrIn kw content := by
    rw [List.any_eq_true]
    constructor
    · rintro ⟨kw, hmem, hin⟩; exact ⟨kw, hmem, (strInB_iff kw content).1 hin⟩
    · rintro ⟨kw, hmem, hin⟩; exact ⟨kw, hmem, (strInB_iff kw content).2 hin⟩
  unfold determine_permissions
  by_cases h : NETWORK_KEYWORDS.any (fun kw => strInB kw content) = true
  · rw [← hany]
    simp [h]
  · rw [← hany]
    simp only [Bool.not_eq_true] at h
    simp [h]

/-- Claim C3: For all inputs, the tag list starts with `"construction"`, has
at most 5 entries, and has no duplicates. -/
theorem claim_C3_tags (name description subcat topcat : String) :
    (determine_tags name description subcat topcat).head? = some "construction" ∧
    (determine_tags name description subcat topcat).length ≤ 5 ∧
    (determine_tags name description subcat topcat).Nodup := by
  unfold determine_tags
  set combined := strLower (name ++ " " ++ description ++ " " ++ subcat) with hc
  set fl := (tag_keywords.filter
    (fun p => p.2.any (fun kw => strInB kw combined))).map (fun p => p.1) with hfl
  have hsub : List.Sublist fl (tag_keywords.map (fun p => p.1)) :=
    (List.filter_sublist tag_keywords).map (fun p => p.1)
  have hkeys : (tag_keywords.map (fun p => p.1)).Nodup := by decide
  have hnc : "construction" ∉ tag_keywords.map (fun p => p.1) := by decide
  have hnodup : ("construction" :: fl).Nodup := by
    rw [List.nodup_cons]
    exact ⟨fun hmem => hnc (hsub.subset hmem), hkeys.sublist hsub⟩
  refine ⟨?_, ?_, ?_⟩
  · rw [List.take_succ_cons]
    rfl
  · exact List.length_take_le 5 _
  · exact hnodup.sublist (List.take_sublist 5 _)

/-- The accumulating environment-variable loop of `determine_requires`,
characterized: it appends the matching variables in table order and sets
the primary variable to the first match. -/
theorem envFoldEq (content : String) (table : List (String × List String))
    (acc : List String) (prim : Option String) :
    table.foldl
      (fun (acc : List String × Option String) p =>
        if p.2.any (fun kw => strInB kw content) then
          (acc.1 ++ [p.1], if acc.2.isNone then some p.1 else acc.2)
        else acc)
      (acc, prim)
    = (acc ++ (table.filter (fun p => p.2.any (fun kw => strInB kw content))).map (fun p => p.1),
       match prim with
       | some x => some x
       | none => ((table.filter (fun p => p.2.any (fun kw => strInB kw content))).map
           (fun p => p.1)).head?) := by
  induction table generalizing acc prim with
  | nil =>
    cases prim <;> simp
  | cons hd tl ih =>
    by_cases h : hd.2.any (fun kw => strInB kw content) = true
    · rw [List.foldl_cons]
      simp only [h, if_pos]
      rw [ih]
      cases prim <;> simp [List.filter_cons, h]
    · simp only [Bool.not_eq_true] at h
      rw [List.foldl_cons]
      simp only [h]
      rw [ih]
      cases prim <;> simp [List.filter_cons, h]

/-- Claim C7: Requirements determination collects exactly the environment
variables whose keyword set matches, in table iteration order, and the
primary variable is the first of them (absent when none match). -/
theorem claim_C7_env (content : String) :
    (determine_requires content).env = specMatchedEnvVars content ∧
    (determine_requires content).primaryEnv = (specMatchedEnvVars content).head? ∧
    (specMatchedEnvVars content = [] → (determine_requires content).primaryEnv = none) := by
  unfold determine_requires specMatchedEnvVars
  rw [envFoldEq]
  refine ⟨by simp, by simp, ?_⟩
  intro h
  simp only []
  rw [h]
  simp

/-- Claim C10: The generated instruction document depends only on the skill
name and description: the `content` argument is accepted but never used. -/
theorem claim_C10_instructions (name description c1 c2 : String) :
    generate_instructions name description c1 = generate_instructions name description c2 := rfl

/-- Claim C5: Emoji selection precedence: a sub-category table match wins over
everything (in particular over any name keyword), then a top-category match,
and with neither match the result is the ordered seven-group name-keyword
fallback with first match winning and default `"🔧"`. -/
theorem claim_C5_emoji (parts : List String) (name : String) :
    (∀ e, EMOJI_MAP.lookup (get_subcategory parts) = some e →
      determine_emoji parts name = e) ∧
    (EMOJI_MAP.lookup (get_subcategory parts) = none →
      ∀ e, EMOJI_MAP.lookup (get_top_category parts) = some e →
        determine_emoji parts name = e) ∧
    (EMOJI_MAP.lookup (get_subcategory parts) = none →
      EMOJI_MAP.lookup (get_top_category parts) = none →
        determine_emoji parts name = firstMatchEmoji specNameEmojiGroups name) := by
  refine ⟨?_, ?_, ?_⟩
  · intro e he
    simp only [determine_emoji]
    rw [he]
  · intro hs e he
    simp only [determine_emoji]
    rw [hs, he]
  · intro hs ht
    simp only [determine_emoji]
    rw [hs, ht]
    simp only [firstMatchEmoji, specNameEmojiGroups]

/-- Witness for C5: a sub-category match (beating a conflicting name
keyword), a top-category match, and a pure name-keyword fallback. -/
theorem claim_C5_emoji_witness :
    determine_emoji ["1_DDC_Toolkit", "CWICR-Database", "cost-skill"] "cost-skill" = "🗄️" ∧
    determine_emoji ["5_DDC_Innovative", "Unknown-Sub", "my-skill"] "my-skill" = "🚀" ∧
    determine_emoji ["Zzz", "Yyy", "cost-thing"] "cost-thing" = "💰" := by
  refine ⟨(claim_C5_emoji _ _).1 _ (by decide), (claim_C5_emoji _ _).2.1 (by decide) _ (by decide), ?_⟩
  rw [(claim_C5_emoji ["Zzz", "Yyy", "cost-thing"] "cost-thing").2.2 (by decide) (by decide)]
  decide

/-- Claim C1, counterexample: On the spec's own example the tag list does NOT
contain `"CWICR"`: the category matches `estimation`, `cost-management`,
`data-processing` (`"data"` occurs inside `"database"`) and `procurement`
(`"material"`), which fill the 5-tag cap before the `CWICR` category is
reached, so the `CWICR` tag is silently truncated away. -/
theorem claim_C1_counterexample :
    "CWICR" ∉ determine_tags "cwicr-cost-lookup"
      "Estimate material costs using the CWICR database" "CWICR-Database" "1_DDC_Toolkit" := by
  decide

/-- Claim C1, amended: For the input name `"cwicr-cost-lookup"`, description
`"Estimate material costs using the CWICR database"`, sub-category
`"CWICR-Database"`, and any raw text without network markers: the emoji is
`"🗄️"` (sub-category match), the tags are exactly
`["construction", "estimation", "cost-management", "data-processing",
"procurement"]` — they begin as the spec says but `"CWICR"` is dropped by
the 5-tag cap — and the permissions are exactly `["filesystem"]`. -/
theorem claim_C1_example (content : String)
    (h : ∀ kw ∈ NETWORK_KEYWORDS, ¬ StrIn kw content) :
    determine_emoji ["1_DDC_Toolkit", "CWICR-Database", "cwicr-cost-lookup"]
        "cwicr-cost-lookup" = "🗄️" ∧
    determine_tags "cwicr-cost-lookup" "Estimate material costs using the CWICR database"
        "CWICR-Database" "1_DDC_Toolkit"
      = ["construction", "estimation", "cost-management", "data-processing", "procurement"] ∧
    determine_permissions content = ["filesystem"] := by
  refine ⟨by decide, by decide, ?_⟩
  have hno : NETWORK_KEYWORDS.any (fun kw => strInB kw content) = false := by
    rw [Bool.eq_false_iff]
    intro hany
    rcases List.any_eq_true.1 hany with ⟨kw, hmem, hin⟩
    exact h kw hmem ((strInB_iff kw content).1 hin)
  unfold determine_permissions
  simp [hno]

/-- Witness for C1: the description itself as raw text has no network marker. -/
theorem claim_C1_example_witness :
    determine_tags "cwicr-cost-lookup" "Estimate material costs using the CWICR database"
        "CWICR-Database" "1_DDC_Toolkit"
      = ["construction", "estimation", "cost-management", "data-processing", "procurement"] ∧
    determine_permissions "Estimate material costs using the CWICR database" = ["filesystem"] :=
  ⟨(claim_C1_example "Estimate material costs using the CWICR database" (by decide)).2.1,
   (claim_C1_example "Estimate material costs using the CWICR database" (by decide)).2.2⟩

/-- Claim C9: `process_skill` never overwrites an existing manifest
(`claw.json`) or instruction file (`instructions.md`): whenever the file is
present beforehand, its content is unchanged afterwards, on every path
through the function. -/
theorem claim_C9_no_overwrite (st : SkillDir) (h : st.clawJson.isSome = true) :
    (process_skill st).1.clawJson = st.clawJson ∧
    (st.instructionsMd.isSome = true →
      (process_skill st).1.instructionsMd = st.instructionsMd) := by
  obtain ⟨dn, parts, md, cj, im⟩ := st
  simp only at h
  cases md with
  | none => exact ⟨rfl, fun _ => rfl⟩
  | some content =>
    simp only [process_skill]
    rcases hp : parse_frontmatter content with ⟨fmOpt, body⟩
    rcases fmOpt with _ | fm
    · exact ⟨rfl, fun _ => rfl⟩
    · by_cases he : fm.isEmpty = true
      · simp [he]
      · simp only [Bool.not_eq_true] at he
        by_cases hh : fmHasKey fm "homepage" = true
        · simp [he, hh]
        · simp only [Bool.not_eq_true] at hh
          simp [he, hh, h]
          intro h1 h2
          rw [h2] at h1
          simp at h1

/-- Witness for C9 at a concrete state with both files present. -/
theorem claim_C9_no_overwrite_witness :
    (process_skill exStFiles).1.clawJson = exStFiles.clawJson ∧
    (exStFiles.instructionsMd.isSome = true →
      (process_skill exStFiles).1.instructionsMd = exStFiles.instructionsMd) :=
  claim_C9_no_overwrite exStFiles rfl

theorem toList_append (s t : String) : (s ++ t).toList = s.toList ++ t.toList :=
  String.data_append s t

theorem filter_range_eq_zero (p : Nat → Bool) (h0 : p 0 = true)
    (h : ∀ k, 0 < k → p k = false) :
    ∀ n, 0 < n → (List.range n).filter p = [0] := by
  intro n
  induction n with
  | zero => omega
  | succ m ih =>
    intro _
    rw [List.range_succ, List.filter_append]
    cases m with
    | zero => simp [h0]
    | succ l =>
      rw [ih (by omega)]
      simp [h (l + 1) (by omega)]

theorem greedyWsNl_cons_nl_isSome (t : List Char) :
    (greedyWsNl ('\n' :: t)).isSome = true := by
  unfold greedyWsNl
  rw [List.getLast?_isSome]
  intro hempty
  have h0 : 0 ∈ (List.range ('\n' :: t).length).filter
      (fun j => (('\n' :: t).take j).all isWS && (('\n' :: t).get? j == some '\n')) := by
    rw [List.mem_filter]
    exact ⟨List.mem_range.2 (by simp), by simp⟩
  rw [hempty] at h0
  exact absurd h0 (List.not_mem_nil 0)

theorem fc_step (c : Char) (t : List Char) :
    findClose (c :: t) =
      (if (nlDashes.isPrefixOf (c :: t) && (greedyWsNl ((c :: t).drop 4)).isSome) = true then
        some ([], (c :: t).drop 4)
      else
        match findClose t with
        | some (g, rest) => some (c :: g, rest)
        | none => none) := rfl

theorem fc_skip_cons (c : Char) (t : List Char) (hc : c ≠ '\n') :
    findClose (c :: t) = (findClose t).map (fun pr => (c :: pr.1, pr.2)) := by
  have hpre : nlDashes.isPrefixOf (c :: t) = false := by
    simp [nlDashes, List.isPrefixOf]
    intro h
    exact absurd h.symm hc
  rw [fc_step, hpre]
  simp only [Bool.false_and, Bool.false_eq_true, if_false]
  cases findClose t with
  | none => rfl
  | some pr => rfl

theorem fc_skip_append (l : List Char) (hl : ('\n' : Char) ∉ l) (r : List Char) :
    findClose (l ++ r) = (findClose r).map (fun pr => (l ++ pr.1, pr.2)) := by
  induction l with
  | nil =>
    rw [List.nil_append]
    cases findClose r with
    | none => rfl
    | some pr => rfl
  | cons c t ih =>
    have hc : c ≠ '\n' := fun h => hl (h ▸ List.mem_cons_self c t)
    have ht : ('\n' : Char) ∉ t := fun h => hl (List.mem_cons_of_mem c h)
    rw [List.cons_append, fc_skip_cons c (t ++ r) hc, ih ht]
    cases findClose r with
    | none => rfl
    | some pr => rfl

theorem fc_nl_nodash (c : Char) (t : List Char) (hc : c ≠ '-') :
    findClose ('\n' :: c :: t) = (findClose (c :: t)).map (fun pr => ('\n' :: pr.1, pr.2)) := by
  have hpre : nlDashes.isPrefixOf ('\n' :: c :: t) = false := by
    simp [nlDashes, List.isPrefixOf]
    intro h
    exact absurd h.symm hc
  rw [fc_step, hpre]
  simp only [Bool.false_and, Bool.false_eq_true, if_false]
  cases findClose (c :: t) with
  | none => rfl
  | some pr => rfl

theorem fc_close (body : List Char) :
    findClose ('\n' :: '-' :: '-' :: '-' :: '\n' :: body) = some ([], '\n' :: body) := by
  have hpre : nlDashes.isPrefixOf ('\n' :: '-' :: '-' :: '-' :: '\n' :: body) = true := by
    simp [nlDashes, List.isPrefixOf]
  rw [fc_step, hpre]
  simp [greedyWsNl_cons_nl_isSome]

theorem pickFm_cons (c : Char) (t : List Char) (hc : isWS c = false) :
    pickFm ('\n' :: c :: t) =
      match findClose (c :: t) with
      | some (g, t') =>
        match greedyWsNl t' with
        | some j => some (g, t'.drop (j + 1))
        | none => none
      | none => none := by
  have hcne : (c == '\n') = false := by
    rw [beq_eq_false_iff_ne]
    intro h
    rw [h] at hc
    simp [isWS] at hc
  have hfilter : (List.range (('\n' :: c :: t) : List Char).length).filter
      (fun k => ((('\n' :: c :: t).take k).all isWS && (('\n' :: c :: t).get? k == some '\n')))
      = [0] := by
    apply filter_range_eq_zero
    · simp
    · intro k hk
      match k with
      | 1 =>
        simp [List.get?, hcne]
      | Nat.succ (Nat.succ m) =>
        simp [List.take_succ_cons, List.all_cons, hc]
    · simp
  unfold pickFm
  rw [hfilter]
  simp only [List.reverse_singleton, List.findSome?_cons, List.findSome?_nil, List.drop_succ_cons,
    List.drop_zero]
  cases findClose (c :: t) with
  | none => rfl
  | some pr =>
    obtain ⟨g, t'⟩ := pr
    dsimp only
    cases greedyWsNl t' with
    | none => rfl
    | some j => rfl

theorem fc_header (l1 l2 l3 l4 body : List Char)
    (h1 : ('\n' : Char) ∉ l1) (h2 : ('\n' : Char) ∉ l2)
    (h3 : ('\n' : Char) ∉ l3) (h4 : ('\n' : Char) ∉ l4)
    (c2 : ∃ c t, l2 = c :: t ∧ c ≠ '-')
    (c3 : ∃ c t, l3 = c :: t ∧ c ≠ '-')
    (c4 : ∃ c t, l4 = c :: t ∧ c ≠ '-') :
    findClose (l1 ++ '\n' :: (l2 ++ '\n' :: (l3 ++ '\n' :: (l4 ++ '\n' :: '-' :: '-' :: '-' :: '\n' :: body))))
      = some (l1 ++ '\n' :: (l2 ++ '\n' :: (l3 ++ '\n' :: l4)), '\n' :: body) := by
  obtain ⟨a2, t2, rfl, ha2⟩ := c2
  obtain ⟨a3, t3, rfl, ha3⟩ := c3
  obtain ⟨a4, t4, rfl, ha4⟩ := c4
  have h2' : ('\n' : Char) ∉ t2 := fun h => h2 (List.mem_cons_of_mem a2 h)
  have h3' : ('\n' : Char) ∉ t3 := fun h => h3 (List.mem_cons_of_mem a3 h)
  have h4' : ('\n' : Char) ∉ t4 := fun h => h4 (List.mem_cons_of_mem a4 h)
  have ha2n : a2 ≠ '\n' := fun h => h2 (h ▸ List.mem_cons_self a2 t2)
  have ha3n : a3 ≠ '\n' := fun h => h3 (h ▸ List.mem_cons_self a3 t3)
  have ha4n : a4 ≠ '\n' := fun h => h4 (h ▸ List.mem_cons_self a4 t4)
  rw [fc_skip_append l1 h1]
  rw [List.cons_append, fc_nl_nodash a2 _ ha2, fc_skip_cons a2 _ ha2n, fc_skip_append t2 h2']
  rw [List.cons_append, fc_nl_nodash a3 _ ha3, fc_skip_cons a3 _ ha3n, fc_skip_append t3 h3']
  rw [List.cons_append, fc_nl_nodash a4 _ ha4, fc_skip_cons a4 _ ha4n, fc_skip_append t4 h4']
  rw [fc_close body]
  simp

theorem splitNl_cons (c : Char) (t : List Char) :
    splitNl (c :: t) =
      (if c = '\n' then [] :: splitNl t
      else
        match splitNl t with
        | [] => [[c]]
        | h :: r => (c :: h) :: r) := rfl

theorem splitNl_nonl (a : List Char) (ha : ('\n' : Char) ∉ a) : splitNl a = [a] := by
  induction a with
  | nil => rfl
  | cons c t ih =>
    have hc : ¬(c = '\n') := fun h => ha (h ▸ List.mem_cons_self c t)
    have ht : ('\n' : Char) ∉ t := fun h => ha (List.mem_cons_of_mem c h)
    rw [splitNl_cons, if_neg hc, ih ht]

theorem splitNl_append (a r : List Char) (ha : ('\n' : Char) ∉ a) :
    splitNl (a ++ '\n' :: r) = a :: splitNl r := by
  induction a with
  | nil =>
    rw [List.nil_append, splitNl_cons, if_pos rfl]
  | cons c t ih =>
    have hc : ¬(c = '\n') := fun h => ha (h ▸ List.mem_cons_self c t)
    have ht : ('\n' : Char) ∉ t := fun h => ha (List.mem_cons_of_mem c h)
    rw [List.cons_append, splitNl_cons, if_neg hc, ih ht]

theorem splitNl_no_nl (l : List Char) : ∀ x ∈ splitNl l, ('\n' : Char) ∉ x := by
  induction l with
  | nil =>
    intro x hx
    simp only [splitNl, List.mem_singleton] at hx
    simp [hx]
  | cons c t ih =>
    intro x hx
    rw [splitNl_cons] at hx
    by_cases hc : c = '\n'
    · rw [if_pos hc] at hx
      rcases List.mem_cons.1 hx with rfl | hx2
      · simp
      · exact ih x hx2
    · rw [if_neg hc] at hx
      rcases hs : splitNl t with _ | ⟨h0, r⟩
      · rw [hs] at hx
        simp only [List.mem_singleton] at hx
        subst hx
        simp
        exact fun h => hc h.symm
      · rw [hs] at hx
        rcases List.mem_cons.1 hx with rfl | hx2
        · intro hmem
          rcases List.mem_cons.1 hmem with h | h
          · exact hc h.symm
          · exact ih h0 (hs ▸ List.mem_cons_self h0 r) h
        · exact ih x (hs ▸ List.mem_cons_of_mem h0 hx2)

theorem stripWS_subset (l : List Char) : stripWS l ⊆ l := by
  intro x hx
  simp only [stripWS, List.mem_reverse] at hx
  have h1 := (List.dropWhile_sublist isWS).subset hx
  rw [List.mem_reverse] at h1
  exact (List.dropWhile_sublist isWS).subset h1

theorem stripCh_subset (c : Char) (l : List Char) : stripCh c l ⊆ l := by
  intro x hx
  simp only [stripCh, List.mem_reverse] at hx
  have h1 := (List.dropWhile_sublist (· == c)).subset hx
  rw [List.mem_reverse] at h1
  exact (List.dropWhile_sublist (· == c)).subset h1

theorem parseFmLines_values_no_nl (lines : List (List Char))
    (hl : ∀ l ∈ lines, ('\n' : Char) ∉ l) :
    ∀ p ∈ parseFmLines lines, ('\n' : Char) ∉ (p.2).toList := by
  intro p hp
  rcases List.mem_filterMap.1 hp with ⟨l0, hl0, hf⟩
  by_cases hcolon : (stripWS l0).contains ':' = true
  · simp only [parseFmLines, hcolon, if_pos] at hf
    rcases Option.some.inj hf with rfl
    intro hmem
    have h1 : ('\n' : Char) ∈ stripWS ((((stripWS l0).dropWhile (· ≠ ':')).drop 1)) := by
      have := stripCh_subset '"' _ ((stripCh_subset '\'' _) hmem)
      exact this
    have h2 := stripWS_subset _ h1
    have h3 := List.mem_of_mem_drop h2
    have h4 := (List.dropWhile_sublist _).subset h3
    have h5 := stripWS_subset _ h4
    exact hl l0 hl0 h5
  · simp only [parseFmLines, hcolon] at hf
    simp at hf

theorem fmGet_mem (fm : List (String × String)) (k v : String)
    (h : fmGet fm k = some v) : ∃ p ∈ fm, p.2 = v := by
  unfold fmGet at h
  have hv := List.mem_of_getLast?_eq_some h
  rcases List.mem_map.1 hv with ⟨p, hp, rfl⟩
  exact ⟨p, (List.mem_filter.1 hp).1, rfl⟩

theorem nameOf_no_nl (fm : List (String × String)) (dirName : String)
    (hfm : ∀ p ∈ fm, ('\n' : Char) ∉ (p.2).toList)
    (hdn : ('\n' : Char) ∉ dirName.toList) :
    ('\n' : Char) ∉ (nameOf fm dirName).toList := by
  unfold nameOf fmGetD
  cases hg : fmGet fm "name" with
  | some v =>
    rcases fmGet_mem fm "name" v hg with ⟨p, hp, rfl⟩
    exact hfm p hp
  | none =>
    cases hg2 : fmGet fm "slug" with
    | some v =>
      rcases fmGet_mem fm "slug" v hg2 with ⟨p, hp, rfl⟩
      exact hfm p hp
    | none => exact hdn

theorem descOf_no_nl (fm : List (String × String))
    (hfm : ∀ p ∈ fm, ('\n' : Char) ∉ (p.2).toList) :
    ('\n' : Char) ∉ (descOf fm).toList := by
  unfold descOf fmGetD
  cases hg : fmGet fm "description" with
  | some v =>
    rcases fmGet_mem fm "description" v hg with ⟨p, hp, rfl⟩
    exact hfm p hp
  | none => simp

theorem parse_fm_some (content : String) (fm : List (String × String)) (body : String)
    (h : parse_frontmatter content = (some fm, body)) :
    ∃ g bodyChars, pickFm (content.toList.drop 3) = some (g, bodyChars)
      ∧ fm = parseFmLines (splitNl g) := by
  simp only [parse_frontmatter] at h
  by_cases hpre : (['-', '-', '-'] : List Char).isPrefixOf content.toList = true
  · rw [if_pos hpre] at h
    rcases hp : pickFm (content.toList.drop 3) with _ | ⟨g, b⟩
    · rw [hp] at h
      simp at h
    · rw [hp] at h
      simp only [Prod.mk.injEq, Option.some.injEq] at h
      exact ⟨g, b, rfl, h.1.symm⟩
  · simp only [Bool.not_eq_true] at hpre
    rw [hpre] at h
    simp at h

theorem parse_values_no_nl (content : String) (fm : List (String × String)) (body : String)
    (h : parse_frontmatter content = (some fm, body)) :
    ∀ p ∈ fm, ('\n' : Char) ∉ (p.2).toList := by
  rcases parse_fm_some content fm body h with ⟨g, bodyChars, _, rfl⟩
  exact parseFmLines_values_no_nl (splitNl g) (splitNl_no_nl g)

theorem hexDigit_ne_nl (n : Nat) : hexDigit n ≠ '\n' := by
  unfold hexDigit
  cases hg : ("0123456789abcdef".toList).get? n with
  | none => decide
  | some c =>
    have hmem : c ∈ "0123456789abcdef".toList := List.get?_mem hg
    have hnl : ('\n' : Char) ∉ "0123456789abcdef".toList := by decide
    simp only [Option.getD_some]
    exact fun h => hnl (h ▸ hmem)

theorem jsonEscChar_no_nl (c : Char) : ('\n' : Char) ∉ jsonEscChar c := by
  unfold jsonEscChar
  by_cases h1 : c = '"'
  · simp [h1]
  rw [if_neg h1]
  by_cases h2 : c = '\\'
  · simp [h2]
  rw [if_neg h2]
  by_cases h3 : c = '\n'
  · simp [h3]
  rw [if_neg h3]
  by_cases h4 : c = '\t'
  · simp [h4]
  rw [if_neg h4]
  by_cases h5 : c = '\r'
  · simp [h5]
  rw [if_neg h5]
  by_cases h6 : c = '\x08'
  · simp [h6]
  rw [if_neg h6]
  by_cases h7 : c = '\x0c'
  · simp [h7]
  rw [if_neg h7]
  by_cases h8 : c.toNat < 32
  · rw [if_pos h8]
    intro hmem
    simp only [List.mem_cons, List.not_mem_nil, or_false] at hmem
    rcases hmem with h | h | h | h | h | h
    · exact absurd h (by decide)
    · exact absurd h (by decide)
    · exact absurd h (by decide)
    · exact absurd h (by decide)
    · exact hexDigit_ne_nl _ h.symm
    · exact hexDigit_ne_nl _ h.symm
  · rw [if_neg h8]
    intro hmem
    rcases List.mem_singleton.1 hmem with rfl
    exact h3 rfl

theorem jsonQuote_no_nl (s : String) : ('\n' : Char) ∉ (jsonQuote s).toList := by
  intro hmem
  simp only [jsonQuote] at hmem
  have : ('\n' : Char) ∈ ('"' :: (s.toList.flatMap jsonEscChar ++ ['"'])) := hmem
  rcases List.mem_cons.1 this with h | h
  · exact absurd h (by decide)
  · rcases List.mem_append.1 h with h2 | h2
    · rcases List.mem_flatMap.1 h2 with ⟨c, _, hc⟩
      exact jsonEscChar_no_nl c hc
    · rcases List.mem_singleton.1 h2 with h3
      exact absurd h3 (by decide)

theorem joinSep_no_nl (sep : String) (hsep : ('\n' : Char) ∉ sep.toList) :
    ∀ xs : List String, (∀ x ∈ xs, ('\n' : Char) ∉ x.toList) →
      ('\n' : Char) ∉ (joinSep sep xs).toList
  | [] => by
    intro _
    simp [joinSep]
  | [x] => by
    intro h
    simpa [joinSep] using h x (List.mem_singleton.2 rfl)
  | x :: y :: xs => by
    intro h
    have ih := joinSep_no_nl sep hsep (y :: xs)
      (fun z hz => h z (List.mem_cons_of_mem x hz))
    simp only [joinSep, toList_append, List.mem_append]
    rintro ((hx | hs) | ht)
    · exact h x (List.mem_cons_self x _) hx
    · exact hsep hs
    · exact ih ht

theorem jsonStrList_no_nl (xs : List String) :
    ('\n' : Char) ∉ (jsonStrList xs).toList := by
  simp only [jsonStrList, toList_append, List.mem_append]
  rintro ((h | h) | h)
  · exact absurd h (by decide)
  · refine joinSep_no_nl ", " (by decide) (xs.map jsonQuote) ?_ h
    intro z hz
    rcases List.mem_map.1 hz with ⟨w, _, rfl⟩
    exact jsonQuote_no_nl w
  · exact absurd h (by decide)

theorem jsonRequires_no_nl (ri : RequiresInfo) :
    ('\n' : Char) ∉ (jsonRequires ri).toList := by
  unfold jsonRequires
  by_cases hempty : ((if ri.bins.isEmpty then [] else [("bins", ri.bins)])
      ++ (if ri.anyBins.isEmpty then [] else [("anyBins", ri.anyBins)])
      ++ (if ri.env.isEmpty then [] else [("env", ri.env)])).isEmpty = true
  · rw [if_pos hempty]
    decide
  · rw [if_neg hempty]
    simp only [toList_append, List.mem_append]
    rintro ((h | h) | h)
    · exact absurd h (by decide)
    · refine joinSep_no_nl ", " (by decide) _ ?_ h
      intro z hz
      rcases List.mem_map.1 hz with ⟨kv, _, rfl⟩
      simp only [toList_append, List.mem_append]
      rintro ((h2 | h2) | h2)
      · exact jsonQuote_no_nl kv.1 h2
      · exact absurd h2 (by decide)
      · exact jsonStrList_no_nl kv.2 h2
    · exact absurd h (by decide)

theorem build_metadata_no_nl (emoji : String) (os_list : List String)
    (homepage : String) (ri : RequiresInfo) :
    ('\n' : Char) ∉ (build_metadata emoji os_list homepage ri).toList := by
  unfold build_metadata
  intro hmem
  simp only [toList_append, List.mem_append] at hmem
  rcases hmem with ((((((((h | h) | h) | h) | h) | h) | h) | h) | h) | h
  · exact absurd h (by decide)
  · exact jsonQuote_no_nl emoji h
  · exact absurd h (by decide)
  · exact jsonStrList_no_nl os_list h
  · exact absurd h (by decide)
  · exact jsonQuote_no_nl homepage h
  · exact absurd h (by decide)
  · exact jsonRequires_no_nl ri h
  · cases hpe : ri.primaryEnv with
    | none =>
      rw [hpe] at h
      exact absurd h (by decide)
    | some p =>
      rw [hpe] at h
      rw [toList_append] at h
      rcases List.mem_append.1 h with h2 | h2
      · exact absurd h2 (by decide)
      · exact jsonQuote_no_nl p h2
  · exact absurd h (by decide)

theorem no_nl_app (a b : List Char) (ha : ('\n' : Char) ∉ a) (hb : ('\n' : Char) ∉ b) :
    ('\n' : Char) ∉ a ++ b := by
  intro h
  rcases List.mem_append.1 h with h2 | h2
  · exact ha h2
  · exact hb h2

theorem pickFm_line (l1 rest : List Char) (hne : ∃ c t, l1 = c :: t ∧ isWS c = false) :
    pickFm ('\n' :: (l1 ++ rest)) =
      match findClose (l1 ++ rest) with
      | some (g, t') =>
        match greedyWsNl t' with
        | some j => some (g, t'.drop (j + 1))
        | none => none
      | none => none := by
  obtain ⟨c, t, rfl, hc⟩ := hne
  rw [List.cons_append]
  exact pickFm_cons c (t ++ rest) hc

/-- Re-parsing the exact header that `process_skill` writes: the regex
matches, and the parsed frontmatter dict is nonempty and contains the
`homepage` key.  (This is the heart of the idempotence argument.) -/
theorem parse_new_content (name description mstr body : String)
    (hn : ('\n' : Char) ∉ name.toList) (hd : ('\n' : Char) ∉ description.toList)
    (hm : ('\n' : Char) ∉ mstr.toList) :
    ∃ fm bodyRes,
      parse_frontmatter ("---\n" ++ "name: \"" ++ name ++ "\"\n"
          ++ "description: \"" ++ description ++ "\"\n"
          ++ "homepage: \"" ++ HOMEPAGE ++ "\"\n"
          ++ "metadata: " ++ mstr ++ "\n" ++ "---" ++ "\n" ++ body)
        = (some fm, bodyRes)
      ∧ fmHasKey fm "homepage" = true ∧ fm.isEmpty = false := by
  have h1 : ('\n' : Char) ∉ "name: \"".toList ++ name.toList ++ ['"'] :=
    no_nl_app _ _ (no_nl_app _ _ (by decide) hn) (by decide)
  have h2 : ('\n' : Char) ∉ "description: \"".toList ++ description.toList ++ ['"'] :=
    no_nl_app _ _ (no_nl_app _ _ (by decide) hd) (by decide)
  have h3 : ('\n' : Char) ∉ "homepage: \"".toList ++ HOMEPAGE.toList ++ ['"'] := by decide
  have h4 : ('\n' : Char) ∉ "metadata: ".toList ++ mstr.toList :=
    no_nl_app _ _ (by decide) hm
  have hsplit : ("---\n" ++ "name: \"" ++ name ++ "\"\n"
        ++ "description: \"" ++ description ++ "\"\n"
        ++ "homepage: \"" ++ HOMEPAGE ++ "\"\n"
        ++ "metadata: " ++ mstr ++ "\n" ++ "---" ++ "\n" ++ body).toList
      = '-' :: '-' :: '-' :: '\n' ::
        (("name: \"".toList ++ name.toList ++ ['"']) ++ '\n' ::
          (("description: \"".toList ++ description.toList ++ ['"']) ++ '\n' ::
            (("homepage: \"".toList ++ HOMEPAGE.toList ++ ['"']) ++ '\n' ::
              (("metadata: ".toList ++ mstr.toList)
                ++ '\n' :: '-' :: '-' :: '-' :: '\n' :: body.toList)))) := by
    simp only [toList_append]
    have e1 : "---\n".toList = ['-', '-', '-', '\n'] := rfl
    have e2 : "\"\n".toList = ['"', '\n'] := rfl
    have e3 : "\n".toList = ['\n'] := rfl
    have e4 : "---".toList = ['-', '-', '-'] := rfl
    rw [e1, e2, e3, e4]
    simp [List.append_assoc]
  obtain ⟨j, hj⟩ : ∃ j, greedyWsNl ('\n' :: body.toList) = some j :=
    Option.isSome_iff_exists.1 (greedyWsNl_cons_nl_isSome body.toList)
  have hfc := fc_header ("name: \"".toList ++ name.toList ++ ['"'])
    ("description: \"".toList ++ description.toList ++ ['"'])
    ("homepage: \"".toList ++ HOMEPAGE.toList ++ ['"'])
    ("metadata: ".toList ++ mstr.toList) body.toList
    h1 h2 h3 h4
    ⟨'d', "escription: \"".toList ++ description.toList ++ ['"'], by simp, by decide⟩
    ⟨'h', "omepage: \"".toList ++ HOMEPAGE.toList ++ ['"'], by simp, by decide⟩
    ⟨'m', "etadata: ".toList ++ mstr.toList, by simp, by decide⟩
  have hpick : pickFm ('\n' ::
      (("name: \"".toList ++ name.toList ++ ['"']) ++ '\n' ::
        (("description: \"".toList ++ description.toList ++ ['"']) ++ '\n' ::
          (("homepage: \"".toList ++ HOMEPAGE.toList ++ ['"']) ++ '\n' ::
            (("metadata: ".toList ++ mstr.toList)
              ++ '\n' :: '-' :: '-' :: '-' :: '\n' :: body.toList)))))
      = some (("name: \"".toList ++ name.toList ++ ['"']) ++ '\n' ::
          (("description: \"".toList ++ description.toList ++ ['"']) ++ '\n' ::
            (("homepage: \"".toList ++ HOMEPAGE.toList ++ ['"']) ++ '\n' ::
              ("metadata: ".toList ++ mstr.toList))),
          ('\n' :: body.toList).drop (j + 1)) := by
    rw [pickFm_line _ _ ⟨'n', "ame: \"".toList ++ name.toList ++ ['"'], by simp, by decide⟩]
    rw [hfc]
    dsimp only
    rw [hj]
  have hfm : parseFmLines (splitNl
        (("name: \"".toList ++ name.toList ++ ['"']) ++ '\n' ::
          (("description: \"".toList ++ description.toList ++ ['"']) ++ '\n' ::
            (("homepage: \"".toList ++ HOMEPAGE.toList ++ ['"']) ++ '\n' ::
              ("metadata: ".toList ++ mstr.toList)))))
      = parseFmLines ["name: \"".toList ++ name.toList ++ ['"'],
          "description: \"".toList ++ description.toList ++ ['"'],
          "homepage: \"".toList ++ HOMEPAGE.toList ++ ['"'],
          "metadata: ".toList ++ mstr.toList] := by
    rw [splitNl_append _ _ h1, splitNl_append _ _ h2, splitNl_append _ _ h3, splitNl_nonl _ h4]
  have hkeymem : ("homepage", "https://datadrivenconstruction.io") ∈
      parseFmLines ["name: \"".toList ++ name.toList ++ ['"'],
        "description: \"".toList ++ description.toList ++ ['"'],
        "homepage: \"".toList ++ HOMEPAGE.toList ++ ['"'],
        "metadata: ".toList ++ mstr.toList] := by
    unfold parseFmLines
    apply List.mem_filterMap.2
    refine ⟨"homepage: \"".toList ++ HOMEPAGE.toList ++ ['"'], by simp, ?_⟩
    decide
  refine ⟨parseFmLines ["name: \"".toList ++ name.toList ++ ['"'],
      "description: \"".toList ++ description.toList ++ ['"'],
      "homepage: \"".toList ++ HOMEPAGE.toList ++ ['"'],
      "metadata: ".toList ++ mstr.toList],
    String.mk (('\n' :: body.toList).drop (j + 1)), ?_, ?_, ?_⟩
  · simp only [parse_frontmatter, hsplit]
    rw [if_pos (by simp [List.isPrefixOf])]
    rw [show ('-' :: '-' :: '-' :: '\n' ::
        (("name: \"".toList ++ name.toList ++ ['"']) ++ '\n' ::
          (("description: \"".toList ++ description.toList ++ ['"']) ++ '\n' ::
            (("homepage: \"".toList ++ HOMEPAGE.toList ++ ['"']) ++ '\n' ::
              (("metadata: ".toList ++ mstr.toList)
                ++ '\n' :: '-' :: '-' :: '-' :: '\n' :: body.toList)))) : List Char).drop 3
      = '\n' :: (("name: \"".toList ++ name.toList ++ ['"']) ++ '\n' ::
          (("description: \"".toList ++ description.toList ++ ['"']) ++ '\n' ::
            (("homepage: \"".toList ++ HOMEPAGE.toList ++ ['"']) ++ '\n' ::
              (("metadata: ".toList ++ mstr.toList)
                ++ '\n' :: '-' :: '-' :: '-' :: '\n' :: body.toList)))) from rfl]
    rw [hpick]
    dsimp only
    rw [hfm]
  · unfold fmHasKey
    exact List.any_eq_true.2 ⟨_, hkeymem, by decide⟩
  · have hne := List.ne_nil_of_mem hkeymem
    cases hfm2 : (parseFmLines ["name: \"".toList ++ name.toList ++ ['"'],
        "description: \"".toList ++ description.toList ++ ['"'],
        "homepage: \"".toList ++ HOMEPAGE.toList ++ ['"'],
        "metadata: ".toList ++ mstr.toList]) with
    | nil => exact absurd hfm2 hne
    | cons a l => rfl

/-- Full characterization of a successful (`OK`) run of `process_skill`. -/
theorem process_skill_ok (dn : String) (parts : List String) (content : String)
    (cj im : Option String) (fm : List (String × String)) (body : String)
    (hparse : parse_frontmatter content = (some fm, body))
    (hne : fm.isEmpty = false)
    (hhp : fmHasKey fm "homepage" = false) :
    process_skill ⟨dn, parts, some content, cj, im⟩ =
      (⟨dn, parts,
        some ("---\n" ++ "name: \"" ++ nameOf fm dn ++ "\"\n"
          ++ "description: \"" ++ descOf fm ++ "\"\n"
          ++ "homepage: \"" ++ HOMEPAGE ++ "\"\n"
          ++ "metadata: " ++ build_metadata (determine_emoji parts (nameOf fm dn))
              (determine_os content) HOMEPAGE (determine_requires content)
          ++ "\n" ++ "---" ++ "\n" ++ body),
        if cj.isSome then cj
        else some (clawJsonDump (build_claw_json (nameOf fm dn) (descOf fm)
          (determine_permissions content)
          (determine_tags (nameOf fm dn) (descOf fm) (get_subcategory parts)
            (get_top_category parts)))),
        if im.isSome then im
        else some (generate_instructions (nameOf fm dn) (descOf fm) content)⟩,
       some ("OK: " ++ nameOf fm dn)) := by
  simp only [process_skill]
  rw [hparse]
  dsimp only
  simp [hne, hhp]

/-- Claim C8: Idempotence at skill granularity: a skill whose parsed header
contains the `homepage` key is skipped with no writes, and after a
successful first run the second run reports SKIP and leaves the whole
directory state unchanged. -/
theorem claim_C8_idempotent (st : SkillDir) (content : String)
    (fm : List (String × String)) (body : String)
    (hmd : st.skillMd = some content)
    (hparse : parse_frontmatter content = (some fm, body))
    (hne : fm.isEmpty = false)
    (hdn : ('\n' : Char) ∉ st.dirName.toList) :
    (fmHasKey fm "homepage" = true →
      process_skill st = (st, some ("SKIP (already updated): " ++ st.dirName))) ∧
    (fmHasKey fm "homepage" = false →
      process_skill (process_skill st).1
        = ((process_skill st).1, some ("SKIP (already updated): " ++ st.dirName))) := by
  obtain ⟨dn, parts, md, cj, im⟩ := st
  simp only at hmd hdn ⊢
  subst hmd
  constructor
  · intro hhp
    simp only [process_skill]
    rw [hparse]
    dsimp only
    simp [hne, hhp]
  · intro hhp
    rw [process_skill_ok dn parts content cj im fm body hparse hne hhp]
    have hvals := parse_values_no_nl content fm body hparse
    have hn : ('\n' : Char) ∉ (nameOf fm dn).toList := nameOf_no_nl fm dn hvals hdn
    have hd : ('\n' : Char) ∉ (descOf fm).toList := descOf_no_nl fm hvals
    have hmstr := build_metadata_no_nl (determine_emoji parts (nameOf fm dn))
      (determine_os content) HOMEPAGE (determine_requires content)
    obtain ⟨fm', bodyRes, hp2, hkey, hne2⟩ :=
      parse_new_content (nameOf fm dn) (descOf fm)
        (build_metadata (determine_emoji parts (nameOf fm dn))
          (determine_os content) HOMEPAGE (determine_requires content))
        body hn hd hmstr
    simp only [process_skill]
    rw [hp2]
    dsimp only
    simp [hne2, hkey]

/-- Witness for C8: the second run on the concrete skill `exSt8` skips and
changes nothing. -/
theorem claim_C8_idempotent_witness :
    process_skill (process_skill exSt8).1
      = ((process_skill exSt8).1, some ("SKIP (already updated): " ++ exSt8.dirName)) :=
  (claim_C8_idempotent exSt8 "---\nname: x\n---\nB" [("name", "x")] "B"
    rfl (by decide) rfl (by decide)).2 rfl

/-- Claim C2, amended: For every processed skill, the rewritten document is
the original body preceded by a header of exactly SIX lines: open
delimiter, `name`, `description`, `homepage` (fixed value), `metadata`
(single-line serialized record), close delimiter.  The no-newline
conjuncts make the six-line reading exact. -/
theorem claim_C2_header (st : SkillDir) (content : String)
    (fm : List (String × String)) (body : String)
    (hmd : st.skillMd = some content)
    (hparse : parse_frontmatter content = (some fm, body))
    (hne : fm.isEmpty = false)
    (hhp : fmHasKey fm "homepage" = false)
    (hdn : ('\n' : Char) ∉ st.dirName.toList) :
    (process_skill st).1.skillMd =
      some ("---\n" ++ "name: \"" ++ nameOf fm st.dirName ++ "\"\n"
        ++ "description: \"" ++ descOf fm ++ "\"\n"
        ++ "homepage: \"" ++ HOMEPAGE ++ "\"\n"
        ++ "metadata: " ++ build_metadata (determine_emoji st.parts (nameOf fm st.dirName))
            (determine_os content) HOMEPAGE (determine_requires content)
        ++ "\n" ++ "---" ++ "\n" ++ body) ∧
    ('\n' : Char) ∉ (nameOf fm st.dirName).toList ∧
    ('\n' : Char) ∉ (descOf fm).toList ∧
    ('\n' : Char) ∉ (build_metadata (determine_emoji st.parts (nameOf fm st.dirName))
      (determine_os content) HOMEPAGE (determine_requires content)).toList := by
  obtain ⟨dn, parts, md, cj, im⟩ := st
  simp only at hmd hdn ⊢
  subst hmd
  rw [process_skill_ok dn parts content cj im fm body hparse hne hhp]
  have hvals := parse_values_no_nl content fm body hparse
  exact ⟨rfl, nameOf_no_nl fm dn hvals hdn, descOf_no_nl fm hvals,
    build_metadata_no_nl _ _ _ _⟩

/-- Witness for C2 at the concrete skill `exSt`. -/
theorem claim_C2_header_witness :
    (process_skill exSt).1.skillMd =
      some ("---\n" ++ "name: \""
        ++ nameOf [("name", "demo"), ("description", "Demo skill")] "demo-skill" ++ "\"\n"
        ++ "description: \"" ++ descOf [("name", "demo"), ("description", "Demo skill")] ++ "\"\n"
        ++ "homepage: \"" ++ HOMEPAGE ++ "\"\n"
        ++ "metadata: " ++ build_metadata
            (determine_emoji ["9_Cat", "Sub", "demo-skill"]
              (nameOf [("name", "demo"), ("description", "Demo skill")] "demo-skill"))
            (determine_os "---\nname: demo\ndescription: Demo skill\n---\nBody text") HOMEPAGE
            (determine_requires "---\nname: demo\ndescription: Demo skill\n---\nBody text")
        ++ "\n" ++ "---" ++ "\n" ++ "Body text") :=
  (claim_C2_header exSt "---\nname: demo\ndescription: Demo skill\n---\nBody text"
    [("name", "demo"), ("description", "Demo skill")] "Body text"
    rfl (by decide) rfl rfl (by decide)).1

/-- Claim C2, counterexample: The header region that `process_skill` writes
spans SIX lines, not five as the claim states: on the concrete skill
`exSt8` the line count of the frontmatter match is 6. -/
theorem claim_C2_counterexample :
    headerLineCount (((process_skill exSt8).1.skillMd).getD "") = some 6 ∧
    headerLineCount (((process_skill exSt8).1.skillMd).getD "") ≠ some 5 := by
  constructor
  · decide
  · decide

/-- Witness for C4: a Windows marker forces `["win32"]`, its absence the
three-platform list. -/
theorem claim_C4_os_witness :
    determine_os "Export the model with Revit" = ["win32"] ∧
    determine_os "plain text about concrete" = ["darwin", "linux", "win32"] :=
  ⟨(claim_C4_os "Export the model with Revit").1.2 ⟨"Revit", by decide, by decide⟩,
   (claim_C4_os "plain text about concrete").2 (by decide)⟩

/-- Witness for C6: a networking marker adds `"network"`, its absence does
not. -/
theorem claim_C6_permissions_witness :
    "network" ∈ determine_permissions "calls requests.get with an API_KEY" ∧
    "network" ∉ determine_permissions "plain text" :=
  ⟨(claim_C6_permissions "calls requests.get with an API_KEY").2.2
      ⟨"requests.get", by decide, by decide⟩,
   fun h => (by decide : ¬∃ kw ∈ NETWORK_KEYWORDS, StrIn kw "plain text")
      ((claim_C6_permissions "plain text").2.1 h)⟩

/-- Witness for C7: both env variables match in table order on one text,
and the primary field is absent on a text with no match. -/
theorem claim_C7_env_witness :
    (determine_requires "uses OpenAI( and a QdrantClient").env
        = specMatchedEnvVars "uses OpenAI( and a QdrantClient" ∧
    (determine_requires "uses OpenAI( and a QdrantClient").primaryEnv
        = (specMatchedEnvVars "uses OpenAI( and a QdrantClient").head? ∧
    (determine_requires "plain").primaryEnv = none :=
  ⟨(claim_C7_env "uses OpenAI( and a QdrantClient").1,
   (claim_C7_env "uses OpenAI( and a QdrantClient").2.1,
   (claim_C7_env "plain").2.2 (by decide)⟩
